import Mathlib

/-!
# Verification of the wallpaper-scheduler core

A shallow embedding, in Lean 4, of the core logic of the
`ai-wallpaper-scheduler` repository: version comparison and the update
checker (`src/services/updateService.ts`), the daily scheduler
(`src/services/scheduler.ts`), the configuration store with its env-file
quoting and API-URL correction passes (`src/config.ts`, the
`load-config` / `save-config` IPC handlers and `loadFreshConfig` in
`src/logger.ts`), and the error classification of the image generator
(`ImageGenerator.generateImage`).

JavaScript strings are modelled as Lean `String` / `List Char`;
JavaScript numbers that arise here are integers (or `NaN`), modelled as
`Option Int` with `none` for `NaN`.  Timestamps are milliseconds since
the epoch, modelled as `Int`.
-/

namespace WallpaperScheduler

/-! ## JavaScript string primitives used by the sources -/

/-- `String.prototype.split(sep)` for a one-character separator, on
character lists: `"a.b".split "." = ["a","b"]`, `"".split "." = [""]`,
`".".split "." = ["", ""]`. -/
def jsSplitChar (sep : Char) : List Char → List (List Char)
  | [] => [[]]
  | c :: cs =>
    let rest := jsSplitChar sep cs
    if c = sep then
      [] :: rest
    else
      match rest with
      | [] => [[c]]
      | grp :: grps => (c :: grp) :: grps

/-- `haystack.includes(needle)` on character lists: `needle` occurs as a
contiguous substring. -/
def jsIncludesL (needle : List Char) : List Char → Bool
  | [] => needle.isEmpty
  | c :: cs => needle.isPrefixOf (c :: cs) || jsIncludesL needle cs

/-- `haystack.includes(needle)` on strings. -/
def jsIncludes (haystack needle : String) : Bool :=
  jsIncludesL needle.toList haystack.toList

/-- The whitespace characters stripped by `String.prototype.trim()`
(restricted to the ASCII whitespace that can occur in the sources). -/
def jsIsSpace (c : Char) : Bool :=
  c = ' ' || c = '\t' || c = '\n' || c = '\r' || c = '\x0b' || c = '\x0c'

/-- `String.prototype.trim()` on character lists. -/
def jsTrimL (l : List Char) : List Char :=
  (l.dropWhile jsIsSpace).reverse.dropWhile jsIsSpace |>.reverse

/-- `Number(component)` for a version/schedule component, modelled on the
fragment that can actually reach the parser: an optional sign followed by
decimal digits parses to that integer, the empty string parses to `0`,
and anything else (letters, embedded signs, …) is `NaN`, returned as
`none`.  (Exotic JavaScript numeric forms — hex, exponents, `Infinity`,
fractions — cannot result from splitting a version string on `'.'` or a
schedule time on `':'` in this code base and are mapped to `NaN` here.) -/
def jsNumber (s : List Char) : Option Int :=
  match s with
  | [] => some 0
  | '-' :: rest =>
    if rest ≠ [] ∧ rest.all Char.isDigit then
      some (-(Int.ofNat (rest.foldl (fun acc c => acc * 10 + c.toNat - '0'.toNat) 0)))
    else none
  | '+' :: rest =>
    if rest ≠ [] ∧ rest.all Char.isDigit then
      some (Int.ofNat (rest.foldl (fun acc c => acc * 10 + c.toNat - '0'.toNat) 0))
    else none
  | l =>
    if l.all Char.isDigit then
      some (Int.ofNat (l.foldl (fun acc c => acc * 10 + c.toNat - '0'.toNat) 0))
    else none

/-- `part || 0`: the JavaScript coalescing applied to each version part
in `isNewerVersion` (`newParts[i] || 0`): `NaN` becomes `0` (and `0`
stays `0`). -/
def numOrZero (s : List Char) : Int :=
  (jsNumber s).getD 0

/-! ## `UpdateService.isNewerVersion` (src/services/updateService.ts) -/

/-- `version.split('.').map(Number)` with the `|| 0` coalescing that
`isNewerVersion` applies to each accessed part. -/
def versionParts (s : String) : List Int :=
  (jsSplitChar '.' s.toList).map numOrZero

/-- The comparison loop of `isNewerVersion`, indexed exactly like the
source's `for` loop (`i` is the current index, the second `Nat` the
number of iterations left until `Math.max(newParts.length,
currentParts.length)` is reached); out-of-range accesses read as
`undefined || 0 = 0`:

    for (let i = 0; i < Math.max(...); i++) {
      const newPart = newParts[i] || 0;
      const currentPart = currentParts[i] || 0;
      if (newPart > currentPart) return true;
      if (newPart < currentPart) return false;
    }
    return false;
-/
def versionCmpFrom (a b : List Int) : Nat → Nat → Bool
  | _, 0 => false
  | i, n + 1 =>
    if a.getD i 0 > b.getD i 0 then true
    else if a.getD i 0 < b.getD i 0 then false
    else versionCmpFrom a b (i + 1) n

/-- `UpdateService.isNewerVersion(newVersion, currentVersion)`:
split both strings on `'.'`, map `Number`, and compare part by part with
`|| 0` coalescing (which turns both `NaN` and missing parts into `0`),
up to the longer part list. -/
def isNewerVersion (newVersion currentVersion : String) : Bool :=
  versionCmpFrom (versionParts newVersion) (versionParts currentVersion) 0
    (max (versionParts newVersion).length (versionParts currentVersion).length)

/-- The value of the `i`-th version component as the loop sees it: the
parsed part when present, `0` (from `|| 0`) when the index is past the
end or the part is `NaN`. -/
def versionPart (s : String) (i : Nat) : Int :=
  (versionParts s).getD i 0

/-- The comparison loop, started at index `i` with `n` iterations left,
returns `true` exactly when the first index `≥ i` at which the
(zero-padded) part sequences differ carries a strictly larger value on
the left — provided the sequences agree everywhere beyond the scanned
window (which holds for the window `Math.max` of the lengths). -/
theorem versionCmpFrom_eq_true_iff (a b : List Int) :
    ∀ n i, (∀ k, i + n ≤ k → a.getD k 0 = b.getD k 0) →
      (versionCmpFrom a b i n = true ↔
        ∃ k, i ≤ k ∧ (∀ j, i ≤ j → j < k → a.getD j 0 = b.getD j 0) ∧
          b.getD k 0 < a.getD k 0) := by
  intro n
  induction n with
  | zero =>
    intro i hbeyond
    simp only [versionCmpFrom]
    constructor
    · intro h
      cases h
    · rintro ⟨k, hik, -, hlt⟩
      rw [hbeyond k (by omega)] at hlt
      exact absurd hlt (lt_irrefl _)
  | succ n ih =>
    intro i hbeyond
    simp only [versionCmpFrom]
    split_ifs with h1 h2
    · refine iff_of_true rfl ⟨i, le_rfl, ?_, h1⟩
      intro j hij hji
      exact absurd (Nat.lt_of_le_of_lt hij hji) (Nat.lt_irrefl i)
    · refine iff_of_false (by simp) ?_
      rintro ⟨k, hik, hpre, hlt⟩
      rcases Nat.eq_or_lt_of_le hik with h | h
      · rw [← h] at hlt
        omega
      · have := hpre i le_rfl h
        omega
    · have heq : a.getD i 0 = b.getD i 0 := by omega
      rw [ih (i + 1) (fun k hk => hbeyond k (by omega))]
      constructor
      · rintro ⟨k, hk, hpre, hlt⟩
        refine ⟨k, by omega, ?_, hlt⟩
        intro j hij hjk
        rcases Nat.eq_or_lt_of_le hij with h | h
        · rw [← h]
          exact heq
        · exact hpre j h hjk
      · rintro ⟨k, hk, hpre, hlt⟩
        have hki : k ≠ i := by
          intro h
          rw [h] at hlt
          omega
        refine ⟨k, by omega, ?_, hlt⟩
        intro j hij hjk
        exact hpre j (by omega) hjk

/-- `isNewerVersion` is `true` exactly when the first index at which the
zero-padded part sequences differ is larger in the new version. -/
theorem isNewerVersion_eq_true_iff (n c : String) :
    isNewerVersion n c = true ↔
      ∃ k, (∀ j, j < k → versionPart n j = versionPart c j) ∧
        versionPart c k < versionPart n k := by
  unfold isNewerVersion versionPart
  rw [versionCmpFrom_eq_true_iff (versionParts n) (versionParts c) _ 0 ?hb]
  case hb =>
    intro k hk
    rw [List.getD_eq_default _ _ (by omega : (versionParts n).length ≤ k),
      List.getD_eq_default _ _ (by omega : (versionParts c).length ≤ k)]
  constructor
  · rintro ⟨k, -, hpre, hlt⟩
    exact ⟨k, fun j hj => hpre j (Nat.zero_le j) hj, hlt⟩
  · rintro ⟨k, hpre, hlt⟩
    exact ⟨k, Nat.zero_le k, fun j _ hj => hpre j hj, hlt⟩

/-- C2: `isNewerVersion` splits both strings on `'.'`, compares numeric
components left-to-right with missing trailing components treated as
`0`, returns `true` iff the first differing component is larger in the
new version, returns `false` when all components are equal, and in
particular `isNewerVersion "1.2.0" "1.10.0" = false`,
`isNewerVersion "2.0.0" "1.9.9" = true`, and
`isNewerVersion "1.0" "1.0.0" = false`. -/
theorem isNewerVersion_spec :
    (∀ n c : String, isNewerVersion n c = true ↔
        ∃ i, (∀ j, j < i → versionPart n j = versionPart c j) ∧
          versionPart c i < versionPart n i)
    ∧ (∀ n c : String, (∀ i, versionPart n i = versionPart c i) →
        isNewerVersion n c = false)
    ∧ isNewerVersion "1.2.0" "1.10.0" = false
    ∧ isNewerVersion "2.0.0" "1.9.9" = true
    ∧ isNewerVersion "1.0" "1.0.0" = false := by
  refine ⟨isNewerVersion_eq_true_iff, ?_, by decide, by decide, by decide⟩
  intro n c hall
  cases h : isNewerVersion n c with
  | false => rfl
  | true =>
    exfalso
    obtain ⟨i, -, hlt⟩ := (isNewerVersion_eq_true_iff n c).mp h
    rw [hall i] at hlt
    exact lt_irrefl _ hlt

/-- Witness for C2: the second conjunct applied at `"3"` and `"3.0"`,
whose padded part sequences agree at every index. -/
theorem isNewerVersion_spec_witness : isNewerVersion "3" "3.0" = false :=
  isNewerVersion_spec.2.1 "3" "3.0" (fun i =>
    match i with
    | 0 => rfl
    | 1 => rfl
    | _ + 2 => rfl)

/-- C10: a version component that does not parse as a number (such as
`"beta"`) is treated exactly as `0` — the parsed `NaN` is replaced by
`0` by `|| 0` — so `"1.0.beta"` compares equal to `"1.0.0"` and
`"1.0"`, and `isNewerVersion` returns `false` in both argument orders
for such pairs. -/
theorem isNewerVersion_nonNumeric_spec :
    (∀ s : List Char, jsNumber s = none → numOrZero s = 0)
    ∧ versionParts "1.0.beta" = [1, 0, 0]
    ∧ versionParts "1.0.0" = [1, 0, 0]
    ∧ isNewerVersion "1.0.beta" "1.0.0" = false
    ∧ isNewerVersion "1.0.0" "1.0.beta" = false
    ∧ isNewerVersion "1.0.beta" "1.0" = false
    ∧ isNewerVersion "1.0" "1.0.beta" = false := by
  refine ⟨?_, by decide, by decide, by decide, by decide, by decide, by decide⟩
  intro s h
  unfold numOrZero
  rw [h]
  rfl

/-- Witness for C10: the `NaN`-to-`0` coalescing at the component
`"beta"`. -/
theorem isNewerVersion_nonNumeric_spec_witness : numOrZero "beta".toList = 0 :=
  isNewerVersion_nonNumeric_spec.1 "beta".toList (by decide)

/-! ## `Scheduler` (src/services/scheduler.ts)

The scheduler object together with the armed Node.js timers.  The
`Scheduler` class holds a single field `intervalId` (the id returned by
`setInterval`, or `null`); the id returned by the `setTimeout` call in
`startDailySchedule` is discarded by the source.  Timer ids are drawn
from a counter; armed timers live in the two id lists. -/

structure SchedulerWorld where
  /-- `this.intervalId` — `null` is `none`. -/
  intervalId : Option Nat
  /-- ids of one-shot `setTimeout` timers currently armed. -/
  armedTimeouts : List Nat
  /-- ids of recurring `setInterval` triggers currently armed. -/
  armedIntervals : List Nat
  /-- fresh-id counter of the runtime. -/
  nextTimerId : Nat
deriving DecidableEq

/-- A freshly constructed `Scheduler` in a runtime with no armed
timers. -/
def initialWorld : SchedulerWorld :=
  { intervalId := none, armedTimeouts := [], armedIntervals := [], nextTimerId := 0 }

/-- `startDailySchedule` (timer effects): `setTimeout(..., msUntilNext)`
arms a one-shot timer whose id is *not* stored anywhere —
`this.intervalId` is untouched. -/
def startDailySchedule (w : SchedulerWorld) : SchedulerWorld :=
  { w with
    armedTimeouts := w.armedTimeouts ++ [w.nextTimerId]
    nextTimerId := w.nextTimerId + 1 }

/-- The armed one-shot timer `tid` fires: it is disarmed, and the
callback runs `setInterval(..., dailyInterval)`, storing the new id in
`this.intervalId`. -/
def timeoutFires (w : SchedulerWorld) (tid : Nat) : SchedulerWorld :=
  { w with
    armedTimeouts := w.armedTimeouts.erase tid
    armedIntervals := w.armedIntervals ++ [w.nextTimerId]
    intervalId := some w.nextTimerId
    nextTimerId := w.nextTimerId + 1 }

/-- `Scheduler.stop()`:

    if (this.intervalId) {
      clearInterval(this.intervalId);
      this.intervalId = null;
    }
-/
def stop (w : SchedulerWorld) : SchedulerWorld :=
  match w.intervalId with
  | some i =>
    { w with armedIntervals := w.armedIntervals.erase i, intervalId := none }
  | none => w

/-- Counterexample to C1 as stated: starting the scheduler and stopping
it before the one-shot timer fires leaves that timer armed — `stop()`
cannot cancel it because `startDailySchedule` discards the `setTimeout`
id.  After `stop (startDailySchedule initialWorld)` the timer with id
`0` is still armed. -/
theorem stop_oneShot_counterexample :
    (stop (startDailySchedule initialWorld)).armedTimeouts = [0]
    ∧ (stop (startDailySchedule initialWorld)).armedTimeouts ≠ [] := by
  decide

/-- C1 (amended): `stop()` is idempotent and total — calling it on an
already-stopped scheduler, including twice in succession, does not throw
and is a no-op — it always leaves `intervalId` cleared and cancels the
recurring interval trigger when one is armed; but it never cancels a
pending one-shot timer. -/
theorem stop_spec :
    (∀ w : SchedulerWorld, stop (stop w) = stop w)
    ∧ (∀ w : SchedulerWorld, (stop w).intervalId = none)
    ∧ (∀ w : SchedulerWorld, ∀ i, w.intervalId = some i →
        (stop w).armedIntervals = w.armedIntervals.erase i)
    ∧ (∀ w : SchedulerWorld, w.intervalId = none → stop w = w)
    ∧ (∀ w : SchedulerWorld, (stop w).armedTimeouts = w.armedTimeouts) := by
  have hnone : ∀ w : SchedulerWorld, (stop w).intervalId = none := by
    intro w
    unfold stop
    cases h : w.intervalId with
    | none => exact h
    | some i => rfl
  have hid_none : ∀ w : SchedulerWorld, w.intervalId = none → stop w = w := by
    intro w h
    unfold stop
    rw [h]
  refine ⟨fun w => hid_none (stop w) (hnone w), hnone, ?_, hid_none, ?_⟩
  · intro w i h
    unfold stop
    rw [h]
  · intro w
    unfold stop
    cases h : w.intervalId <;> rfl

/-- Witness for C1's amended theorem: after start and the one-shot
firing, the interval id `1` is armed and stored, and `stop` cancels
exactly that interval. -/
theorem stop_spec_witness :
    (stop (timeoutFires (startDailySchedule initialWorld) 0)).armedIntervals
      = (timeoutFires (startDailySchedule initialWorld) 0).armedIntervals.erase 1 :=
  stop_spec.2.2.1 (timeoutFires (startDailySchedule initialWorld) 0) 1 rfl

/-! ## `UpdateService.checkForUpdates` (src/services/updateService.ts)

The release-feed request is modelled by its outcome: a parsed release
JSON, an axios error carrying an HTTP response status, or any other
network/transport failure. -/

structure Asset where
  name : String
  browser_download_url : String
deriving DecidableEq

structure Release where
  tag_name : String
  assets : List Asset
  body : Option String
  published_at : Option String
deriving DecidableEq

structure UpdateInfo where
  version : String
  available : Bool
  downloadUrl : String
  releaseNotes : Option String
  publishedAt : Option String
deriving DecidableEq

inductive FetchOutcome where
  /-- the GET succeeded and `response.data` parsed as a release. -/
  | ok (latestRelease : Release)
  /-- an axios error with `error.response?.status` equal to the given
  code (e.g. an HTTP 404 not-found response). -/
  | httpError (status : Nat)
  /-- any other network or transport failure (timeout, DNS, aborted
  connection, …) with no response status. -/
  | networkError
deriving DecidableEq

/-- `latestRelease.tag_name.replace(/^v/, '')`: strip one leading `'v'`
if present. -/
def stripLeadingV (s : String) : String :=
  if s.startsWith "v" then s.drop 1 else s

/-- `latestRelease.assets?.find(a => a.name.includes('windows') &&
a.name.endsWith('.zip'))`. -/
def findWindowsAsset (assets : List Asset) : Option Asset :=
  assets.find? (fun a => jsIncludes a.name "windows" && a.name.endsWith ".zip")

/-- `UpdateService.checkForUpdates` as a function of the request
outcome.  The `catch` block returns the degraded
`{version: currentVersion, available: false, downloadUrl: ''}` both for
a 404 response (logged as "no releases") and for every other failure
(logged as "update check failed") — it never re-throws. -/
def checkForUpdates (currentVersion : String) (outcome : FetchOutcome) : UpdateInfo :=
  match outcome with
  | .ok latestRelease =>
    let latestVersion := stripLeadingV latestRelease.tag_name
    { version := latestVersion
      available := isNewerVersion latestVersion currentVersion
      downloadUrl :=
        ((findWindowsAsset latestRelease.assets).map Asset.browser_download_url).getD ""
      releaseNotes := some (latestRelease.body.getD "")
      publishedAt := latestRelease.published_at }
  | .httpError status =>
    if status = 404 then
      { version := currentVersion, available := false, downloadUrl := ""
        releaseNotes := none, publishedAt := none }
    else
      { version := currentVersion, available := false, downloadUrl := ""
        releaseNotes := none, publishedAt := none }
  | .networkError =>
    { version := currentVersion, available := false, downloadUrl := ""
      releaseNotes := none, publishedAt := none }

/-- The degraded result the catch block produces. -/
def degradedUpdateInfo (currentVersion : String) : UpdateInfo :=
  { version := currentVersion, available := false, downloadUrl := ""
    releaseNotes := none, publishedAt := none }

/-- C3: `checkForUpdates` never throws to its caller — it is a total
function of the request outcome — and both an HTTP 404 response and
every other network or transport failure make it return
`{version: currentVersion, available: false, downloadUrl: ''}`. -/
theorem checkForUpdates_degrades :
    (∀ currentVersion : String,
      checkForUpdates currentVersion (.httpError 404) = degradedUpdateInfo currentVersion)
    ∧ (∀ (currentVersion : String) (status : Nat),
      checkForUpdates currentVersion (.httpError status) = degradedUpdateInfo currentVersion)
    ∧ (∀ currentVersion : String,
      checkForUpdates currentVersion .networkError = degradedUpdateInfo currentVersion) := by
  refine ⟨fun c => rfl, fun c status => ?_, fun c => rfl⟩
  show (if status = 404 then degradedUpdateInfo c else degradedUpdateInfo c)
    = degradedUpdateInfo c
  split_ifs <;> rfl

/-! ## Delay computation of `startDailySchedule` (scheduler.ts 40–59)

`Date` values are epoch timestamps in milliseconds (`Int`).  The
process's local timezone is modelled as a constant UTC offset `off` in
milliseconds: the local wall clock of timestamp `now` reads
`now + off`.  `scheduledTime.setHours(h, m, 0, 0)` sets the `Date` to
local midnight of the current local day plus `h` hours and `m` minutes;
`setDate(getDate() + 1)` adds one day. -/

/-- `scheduledTime.setHours(hours, minutes, 0, 0)` applied to a `Date`
holding `now`, as an epoch timestamp: local midnight of `now`'s local
day, plus the requested wall-clock time, converted back to the epoch
frame.  (`(now + off) % 86400000` is the local time of day; `%` is
`Int.emod`, which is non-negative for the positive modulus.) -/
def setHoursEpoch (off now hours minutes : Int) : Int :=
  (now + off) - (now + off) % 86400000 + (hours * 3600000 + minutes * 60000) - off

/-- Lines 41–50 of `scheduler.ts`: the armed one-shot delay.

    const now = new Date();
    const scheduledTime = new Date();
    scheduledTime.setHours(hours, minutes, 0, 0);
    if (scheduledTime <= now) { scheduledTime.setDate(scheduledTime.getDate() + 1); }
    const msUntilNext = scheduledTime.getTime() - now.getTime();
-/
def msUntilNext (hours minutes off now : Int) : Int :=
  let scheduledTime := setHoursEpoch off now hours minutes
  (if scheduledTime ≤ now then scheduledTime + 86400000 else scheduledTime) - now

/-- `config.schedule.time.split(':').map(Number)` destructured as
`[hours, minutes]`; `none` when a component is missing or `NaN` (in
which case the source would build an invalid `Date`). -/
def parseScheduleTime (s : String) : Option (Int × Int) :=
  match (jsSplitChar ':' s.toList).map jsNumber with
  | some h :: some m :: _ => some (h, m)
  | _ => none

/-- The full delay computation of `startDailySchedule` from the
configured `HH:MM` string, in a process whose local timezone has UTC
offset `off`. -/
def startDelay (timeStr : String) (off now : Int) : Option Int :=
  (parseScheduleTime timeStr).map fun hm => msUntilNext hm.1 hm.2 off now

/-- What `startDailySchedule` does at start time, besides arming timers:
the computed delay, whether the immediate catch-up `runOnce()` fires
(line 55: `if (msUntilNext > 3600000)`), and that the scheduled one-shot
is armed regardless. -/
structure StartResult where
  delay : Int
  immediateRun : Bool
  armedOneShot : Bool
deriving DecidableEq

/-- Lines 40–74 of `scheduler.ts` as a function of the configured time
string, the process UTC offset and the current time. -/
def startDailyScheduleRun (timeStr : String) (off now : Int) : Option StartResult :=
  (parseScheduleTime timeStr).map fun hm =>
    { delay := msUntilNext hm.1 hm.2 off now
      immediateRun := msUntilNext hm.1 hm.2 off now > 3600000
      armedOneShot := true }

/-- Modelled from C4's words, for refutation: the delay to "today at
HH:MM in the *configured* timezone (constant UTC offset `cfgOff`), or
tomorrow at HH:MM if today's target has already passed", minus now. -/
def delayToConfiguredTzTarget (hours minutes cfgOff now : Int) : Int :=
  let localNow := now + cfgOff
  let target := localNow - localNow % 86400000 + (hours * 3600000 + minutes * 60000)
  (if target ≤ localNow then target + 86400000 else target) - localNow

/-- Counterexample to C4 as stated: the scheduler uses the process's
local timezone, not the configured one.  With the process clock in UTC
(`off = 0`), the configured timezone at UTC+1 (`cfgOff = 3600000`),
schedule time `"09:00"` and `now = 0` (midnight UTC), the code arms a
9-hour delay, while today-09:00 in the configured timezone is 8 hours
away. -/
theorem startDelay_timezone_counterexample :
    startDelay "09:00" 0 0 = some 32400000
    ∧ delayToConfiguredTzTarget 9 0 3600000 0 = 28800000
    ∧ startDelay "09:00" 0 0 ≠ some (delayToConfiguredTzTarget 9 0 3600000 0) := by
  refine ⟨by decide, by decide, ?_⟩
  intro h
  have h1 : startDelay "09:00" 0 0 = some 32400000 := by decide
  have h2 : delayToConfiguredTzTarget 9 0 3600000 0 = 28800000 := by decide
  rw [h1, h2] at h
  exact absurd (Option.some.inj h) (by decide)

/-- C4 (amended): for a valid wall-clock target (`0 ≤ h:m < 24 h`), the
armed delay equals today's target minus now when the local time of day
is before the target, and tomorrow's target minus now otherwise — in
the *process-local* timezone — and it always lies in `(0, 24 h]`.  Also
connects the `HH:MM` string to the parsed pair. -/
theorem msUntilNext_spec (h m off now : Int)
    (htarget0 : 0 ≤ h * 3600000 + m * 60000)
    (htarget1 : h * 3600000 + m * 60000 < 86400000) :
    (msUntilNext h m off now =
      if (now + off) % 86400000 < h * 3600000 + m * 60000 then
        h * 3600000 + m * 60000 - (now + off) % 86400000
      else
        h * 3600000 + m * 60000 - (now + off) % 86400000 + 86400000)
    ∧ 0 < msUntilNext h m off now
    ∧ msUntilNext h m off now ≤ 86400000 := by
  have heq : msUntilNext h m off now =
      (if setHoursEpoch off now h m ≤ now then setHoursEpoch off now h m + 86400000
       else setHoursEpoch off now h m) - now := rfl
  rw [heq]
  unfold setHoursEpoch
  refine ⟨?_, ?_, ?_⟩ <;> split_ifs <;> omega

/-- Witness for C4's amended theorem: at `"09:00"`, offset `0`,
`now = 0`, the delay is characterized and bounded. -/
theorem msUntilNext_spec_witness :
    0 < msUntilNext 9 0 0 0 ∧ msUntilNext 9 0 0 0 ≤ 86400000 :=
  (msUntilNext_spec 9 0 0 0 (by decide) (by decide)).2

/-- C5: the immediate best-effort catch-up run fires exactly when the
computed delay exceeds one hour (3600000 ms), independently of the
armed scheduled run; at `08:00` with schedule `"09:00"` the delay is
exactly one hour and no catch-up fires, at `23:00` the delay is ten
hours and the catch-up fires, with the one-shot armed in both cases. -/
theorem immediateCatchUp_spec :
    (∀ (t : String) (off now : Int) (r : StartResult),
      startDailyScheduleRun t off now = some r →
        (r.immediateRun = true ↔ 3600000 < r.delay) ∧ r.armedOneShot = true)
    ∧ startDailyScheduleRun "09:00" 0 28800000 =
        some { delay := 3600000, immediateRun := false, armedOneShot := true }
    ∧ startDailyScheduleRun "09:00" 0 82800000 =
        some { delay := 36000000, immediateRun := true, armedOneShot := true } := by
  refine ⟨?_, by decide, by decide⟩
  intro t off now r hr
  unfold startDailyScheduleRun at hr
  cases hp : parseScheduleTime t with
  | none =>
    rw [hp] at hr
    exact absurd hr (by simp)
  | some hm =>
    rw [hp] at hr
    have hr2 := Option.some.inj hr
    rw [← hr2]
    refine ⟨?_, rfl⟩
    show (decide (msUntilNext hm.1 hm.2 off now > 3600000) = true) ↔ _
    exact decide_eq_true_iff

/-- Witness for C5: the catch-up decision at the 23:00 scenario. -/
theorem immediateCatchUp_spec_witness :
    ({ delay := 36000000, immediateRun := true, armedOneShot := true
        : StartResult }.immediateRun = true
      ↔ 3600000 < ({ delay := 36000000, immediateRun := true, armedOneShot := true
        : StartResult }).delay) :=
  (immediateCatchUp_spec.1 "09:00" 0 82800000 _ (by decide)).1

/-! ## API-URL correction passes (src/config.ts, src/logger.ts)

Stored `GOOGLE_API_URL` values matching a deny-list of deprecated
markers are rewritten to the single canonical endpoint, on the load path
(`load-config`, logger.ts 1262–1284), on the save path (`save-config`,
logger.ts 1305–1315), and in `correctApiUrl` of `src/config.ts`
(95–136).  Only the value semantics is modelled; the best-effort
`.env`-file rewrite is I/O. -/

/-- The canonical current endpoint. -/
def canonicalApiUrl : String :=
  "https://generativelanguage.googleapis.com/v1beta/models/gemini-3-pro-image-preview:generateContent"

/-- The deny-list test shared (textually identical) by the `load-config`
handler (logger.ts 1263–1264) and the `save-config` handler (logger.ts
1307–1308):

    url.includes('nano-banana-pro') || url.includes('-exp') ||
    url.includes('gemini-2.5-flash-image') ||
    (url.includes('gemini-3-pro') && !url.includes('image'))
-/
def ipcUrlDeprecated (u : String) : Bool :=
  jsIncludes u "nano-banana-pro" || jsIncludes u "-exp" ||
    jsIncludes u "gemini-2.5-flash-image" ||
    (jsIncludes u "gemini-3-pro" && !jsIncludes u "image")

/-- The `load-config` rewrite of a present `GOOGLE_API_URL` value. -/
def loadConfigCorrectUrl (u : String) : String :=
  if ipcUrlDeprecated u then canonicalApiUrl else u

/-- The `save-config` rewrite of a present `GOOGLE_API_URL` value. -/
def saveConfigCorrectUrl (u : String) : String :=
  if ipcUrlDeprecated u then canonicalApiUrl else u

/-- `correctApiUrl(url, defaultValue)` of `src/config.ts` (95–136),
value semantics: `url || defaultValue`, the deny-list test
(`nano-banana-pro`, `api.google.com`, `-exp`, `gemini-2.5-flash-image`,
`flash-image`), and the final `rawUrl || correctUrl`. -/
def correctApiUrl (url : Option String) (defaultValue : String) : String :=
  let rawUrl := match url with
    | none => defaultValue
    | some u => if u = "" then defaultValue else u
  if jsIncludes rawUrl "nano-banana-pro" || jsIncludes rawUrl "api.google.com" ||
      jsIncludes rawUrl "-exp" || jsIncludes rawUrl "gemini-2.5-flash-image" ||
      jsIncludes rawUrl "flash-image" then
    canonicalApiUrl
  else if rawUrl = "" then canonicalApiUrl else rawUrl

/-- C6: any stored endpoint matching a deprecated marker is rewritten to
the canonical endpoint by both the load path and the save path, and the
rewrite is idempotent — the canonical endpoint matches no deny-list
marker, so re-loading a corrected value performs no further rewrite. -/
theorem apiUrl_correction_spec :
    (∀ u, ipcUrlDeprecated u = true →
      loadConfigCorrectUrl u = canonicalApiUrl ∧ saveConfigCorrectUrl u = canonicalApiUrl)
    ∧ ipcUrlDeprecated canonicalApiUrl = false
    ∧ loadConfigCorrectUrl canonicalApiUrl = canonicalApiUrl
    ∧ saveConfigCorrectUrl canonicalApiUrl = canonicalApiUrl
    ∧ (∀ u, loadConfigCorrectUrl (loadConfigCorrectUrl u) = loadConfigCorrectUrl u)
    ∧ (∀ u, saveConfigCorrectUrl (saveConfigCorrectUrl u) = saveConfigCorrectUrl u)
    ∧ correctApiUrl (some canonicalApiUrl) canonicalApiUrl = canonicalApiUrl := by
  have hcanon : ipcUrlDeprecated canonicalApiUrl = false := by decide
  have hidem : ∀ u, loadConfigCorrectUrl (loadConfigCorrectUrl u) = loadConfigCorrectUrl u := by
    intro u
    unfold loadConfigCorrectUrl
    by_cases h : ipcUrlDeprecated u = true
    · rw [if_pos h, if_neg (by rw [hcanon]; exact Bool.false_ne_true)]
    · rw [if_neg h, if_neg h]
  refine ⟨?_, hcanon, ?_, ?_, hidem, hidem, by decide⟩
  · intro u h
    unfold loadConfigCorrectUrl saveConfigCorrectUrl
    rw [if_pos h]
    exact ⟨rfl, rfl⟩
  · unfold loadConfigCorrectUrl
    rw [if_neg (by rw [hcanon]; exact Bool.false_ne_true)]
  · unfold saveConfigCorrectUrl
    rw [if_neg (by rw [hcanon]; exact Bool.false_ne_true)]

/-- Witness for C6: the deprecated default URL written by the legacy
setup script is rewritten on both paths. -/
theorem apiUrl_correction_spec_witness :
    loadConfigCorrectUrl "https://api.google.com/nano-banana-pro/generate" = canonicalApiUrl
    ∧ saveConfigCorrectUrl "https://api.google.com/nano-banana-pro/generate" = canonicalApiUrl :=
  apiUrl_correction_spec.1 "https://api.google.com/nano-banana-pro/generate" (by decide)

/-! ## Configuration load with defaults (src/config.ts 86–92, 143–202)

The process environment after dotenv loading is a partial map from key
to string value; a key present in the configuration file with an empty
value maps to `some ""`. -/

/-- `getEnvVar(key, defaultValue)` (config.ts 86–92):

    const value = process.env[key];
    if (!value && !defaultValue) return undefined;
    return value || defaultValue;

`!x` holds for `undefined` (`none`) and for the empty string. -/
def getEnvVar (env : String → Option String) (key : String)
    (defaultValue : Option String) : Option String :=
  match env key, defaultValue with
  | none, none => none
  | some v, none => if v = "" then none else some v
  | none, some d => some d
  | some v, some d => if v = "" then some d else some v

/-- The JavaScript `x || d` applied to an optional string and a string
default (`getEnvVar(...) || 'default'` in the `config` literal). -/
def jsOrDefault (x : Option String) (d : String) : String :=
  match x with
  | none => d
  | some s => if s = "" then d else s

/-- The deny-list test of the IIFE in config.ts (line 148):
`rawUrl.includes('nano-banana-pro') || rawUrl.includes('api.google.com')
|| rawUrl.includes('-exp')`. -/
def iifeUrlDeprecated (u : String) : Bool :=
  jsIncludes u "nano-banana-pro" || jsIncludes u "api.google.com" || jsIncludes u "-exp"

/-- The `correctedApiUrl` computed by the IIFE (config.ts 143–181),
value semantics: `rawUrl = getEnvVar('GOOGLE_API_URL')`; if truthy and
matching the deny-list, the canonical default; otherwise
`rawUrl || defaultValue`. -/
def correctedApiUrlInit (env : String → Option String) : String :=
  match getEnvVar env "GOOGLE_API_URL" none with
  | none => canonicalApiUrl
  | some u => if iifeUrlDeprecated u then canonicalApiUrl else jsOrDefault (some u) canonicalApiUrl

/-- The documented defaults (config.ts 189–200). -/
def defaultImagePrompt : String :=
  "A beautiful serene landscape with mountains and a river at sunrise"

/-- The `Config` record of `src/config.ts` restricted to its
env-derived string fields (`imagesDir` is a path computation independent
of the environment and is omitted). -/
structure AppConfig where
  apiKey : Option String
  apiUrl : String
  imagePrompt : String
  aspectRatio : String
  imageSize : String
  logLevel : String
  scheduleTime : String
  timezone : String
deriving DecidableEq

/-- The `config` constant (config.ts 183–202) as a function of the
process environment. -/
def loadAppConfig (env : String → Option String) : AppConfig :=
  { apiKey := getEnvVar env "GOOGLE_API_KEY" none
    apiUrl := correctedApiUrlInit env
    imagePrompt :=
      jsOrDefault (getEnvVar env "IMAGE_PROMPT" (some defaultImagePrompt)) defaultImagePrompt
    aspectRatio := jsOrDefault (getEnvVar env "ASPECT_RATIO" (some "16:9")) "16:9"
    imageSize := jsOrDefault (getEnvVar env "IMAGE_SIZE" (some "1K")) "1K"
    logLevel := jsOrDefault (getEnvVar env "LOG_LEVEL" (some "info")) "info"
    scheduleTime := jsOrDefault (getEnvVar env "SCHEDULE_TIME" (some "09:00")) "09:00"
    timezone := jsOrDefault (getEnvVar env "TIMEZONE" (some "America/New_York")) "America/New_York" }

/-- An absent (or empty) key falls back to its default and a key present
with a nonempty value is taken as is: the composite applied to each
defaulted field. -/
theorem jsOrDefault_getEnvVar (env : String → Option String) (key d : String) :
    (env key = none → jsOrDefault (getEnvVar env key (some d)) d = d)
    ∧ (env key = some "" → jsOrDefault (getEnvVar env key (some d)) d = d)
    ∧ (∀ v, env key = some v → v ≠ "" → jsOrDefault (getEnvVar env key (some d)) d = v) := by
  refine ⟨?_, ?_, ?_⟩
  · intro h
    simp [getEnvVar, jsOrDefault, h]
  · intro h
    simp [getEnvVar, jsOrDefault, h]
  · intro v h hv
    simp [getEnvVar, jsOrDefault, h, hv]

/-- Counterexample to C8 as stated: a key *present* in the configuration
file with an empty value (the file line `SCHEDULE_TIME=`) is also
replaced by its default — `value || defaultValue` treats the empty
string as absent — so "leaves every key that is present unchanged" fails. -/
theorem loadConfig_emptyValue_counterexample :
    (fun k : String => if k = "SCHEDULE_TIME" then some "" else none) "SCHEDULE_TIME" = some ""
    ∧ (loadAppConfig
        (fun k : String => if k = "SCHEDULE_TIME" then some "" else none)).scheduleTime = "09:00"
    ∧ (loadAppConfig
        (fun k : String => if k = "SCHEDULE_TIME" then some "" else none)).scheduleTime ≠ "" := by
  refine ⟨by decide, by decide, ?_⟩
  intro h
  have : ("09:00" : String) = "" := by
    rw [← h]
    decide
  exact absurd this (by decide)

/-- C8 (amended): `load()` substitutes the documented default for every
key that is absent — `'09:00'` for the schedule time, `'16:9'` for
aspect ratio, `'1K'` for resolution, `'America/New_York'` for timezone,
and likewise for prompt and log level — and leaves every key present
with a *nonempty* value unchanged; a key present with an empty value is
also replaced by its default. -/
theorem loadAppConfig_defaults_spec (env : String → Option String) :
    (env "SCHEDULE_TIME" = none → (loadAppConfig env).scheduleTime = "09:00")
    ∧ (env "ASPECT_RATIO" = none → (loadAppConfig env).aspectRatio = "16:9")
    ∧ (env "IMAGE_SIZE" = none → (loadAppConfig env).imageSize = "1K")
    ∧ (env "TIMEZONE" = none → (loadAppConfig env).timezone = "America/New_York")
    ∧ (env "IMAGE_PROMPT" = none → (loadAppConfig env).imagePrompt = defaultImagePrompt)
    ∧ (env "LOG_LEVEL" = none → (loadAppConfig env).logLevel = "info")
    ∧ (∀ v, v ≠ "" → env "SCHEDULE_TIME" = some v → (loadAppConfig env).scheduleTime = v)
    ∧ (∀ v, v ≠ "" → env "ASPECT_RATIO" = some v → (loadAppConfig env).aspectRatio = v)
    ∧ (∀ v, v ≠ "" → env "IMAGE_SIZE" = some v → (loadAppConfig env).imageSize = v)
    ∧ (∀ v, v ≠ "" → env "TIMEZONE" = some v → (loadAppConfig env).timezone = v)
    ∧ (∀ v, v ≠ "" → env "IMAGE_PROMPT" = some v → (loadAppConfig env).imagePrompt = v)
    ∧ (∀ v, v ≠ "" → env "LOG_LEVEL" = some v → (loadAppConfig env).logLevel = v) := by
  refine ⟨fun h => (jsOrDefault_getEnvVar env _ _).1 h,
    fun h => (jsOrDefault_getEnvVar env _ _).1 h,
    fun h => (jsOrDefault_getEnvVar env _ _).1 h,
    fun h => (jsOrDefault_getEnvVar env _ _).1 h,
    fun h => (jsOrDefault_getEnvVar env _ _).1 h,
    fun h => (jsOrDefault_getEnvVar env _ _).1 h,
    fun v hv h => (jsOrDefault_getEnvVar env _ _).2.2 v h hv,
    fun v hv h => (jsOrDefault_getEnvVar env _ _).2.2 v h hv,
    fun v hv h => (jsOrDefault_getEnvVar env _ _).2.2 v h hv,
    fun v hv h => (jsOrDefault_getEnvVar env _ _).2.2 v h hv,
    fun v hv h => (jsOrDefault_getEnvVar env _ _).2.2 v h hv,
    fun v hv h => (jsOrDefault_getEnvVar env _ _).2.2 v h hv⟩

/-- Witness for C8's amended theorem: an empty environment yields every
documented default, and a present nonempty `SCHEDULE_TIME` is kept. -/
theorem loadAppConfig_defaults_spec_witness :
    (loadAppConfig (fun _ => none)).scheduleTime = "09:00"
    ∧ (loadAppConfig (fun _ => none)).aspectRatio = "16:9"
    ∧ (loadAppConfig (fun _ => none)).imageSize = "1K"
    ∧ (loadAppConfig (fun _ => none)).timezone = "America/New_York"
    ∧ (loadAppConfig (fun k => if k = "SCHEDULE_TIME" then some "07:30" else none)).scheduleTime
        = "07:30" :=
  ⟨(loadAppConfig_defaults_spec (fun _ => none)).1 rfl,
    (loadAppConfig_defaults_spec (fun _ => none)).2.1 rfl,
    (loadAppConfig_defaults_spec (fun _ => none)).2.2.1 rfl,
    (loadAppConfig_defaults_spec (fun _ => none)).2.2.2.1 rfl,
    (loadAppConfig_defaults_spec
        (fun k => if k = "SCHEDULE_TIME" then some "07:30" else none)).2.2.2.2.2.2.1
      "07:30" (by decide) (by decide)⟩

/-! ## Error classification in `ImageGenerator.generateImage`

The `catch` block (lines 213–231 of the image generator) lowercases the
`Error` message and rethrows by content; non-matching failures are
rethrown unchanged.  `toLowerCase` is modelled on ASCII letters, which
covers every pattern searched. -/

/-- `err.message.toLowerCase()` (ASCII). -/
def jsToLowerCase (s : String) : String :=
  String.mk (s.data.map Char.toLower)

/-- The rethrow of the `catch` block of `generateImage`, as a function
of the model name and the original error message, returning the message
of the error thrown to the caller:

    const errorMessage = err.message.toLowerCase();
    if (errorMessage.includes('api key') || errorMessage.includes('authentication')
        || errorMessage.includes('401') || errorMessage.includes('403')) { ... }
    else if (errorMessage.includes('not found') || errorMessage.includes('404')) { ... }
    else if (errorMessage.includes('quota') || errorMessage.includes('rate limit')) { ... }
    else if (errorMessage.includes('invalid') || errorMessage.includes('400')) { ... }
    throw err;
-/
def generateImageRethrow (modelName errMessage : String) : String :=
  let errorMessage := jsToLowerCase errMessage
  if jsIncludes errorMessage "api key" || jsIncludes errorMessage "authentication" ||
      jsIncludes errorMessage "401" || jsIncludes errorMessage "403" then
    "Invalid API key. Please check your GOOGLE_API_KEY in settings."
  else if jsIncludes errorMessage "not found" || jsIncludes errorMessage "404" then
    "Model " ++ modelName ++ " not found. Please check your model configuration."
  else if jsIncludes errorMessage "quota" || jsIncludes errorMessage "rate limit" then
    "API quota exceeded or rate limit reached. Please try again later."
  else if jsIncludes errorMessage "invalid" || jsIncludes errorMessage "400" then
    "Invalid request: " ++ errMessage
  else errMessage

/-- The four rewritten categories of C9, plus "everything else". -/
inductive GenErrorCategory where
  | credential
  | modelMissing
  | quotaRateLimit
  | malformedRequest
  | other
deriving DecidableEq

/-- Modelled from the claim's words: classification of an
image-generation failure by message content — credential (api key /
authentication / 401 / 403), not-found/model-missing (not found / 404),
quota/rate-limit (quota / rate limit), malformed-request (invalid /
400), in that order, anything else unclassified. -/
def claimErrorCategory (errMessage : String) : GenErrorCategory :=
  let m := jsToLowerCase errMessage
  if jsIncludes m "api key" || jsIncludes m "authentication" ||
      jsIncludes m "401" || jsIncludes m "403" then .credential
  else if jsIncludes m "not found" || jsIncludes m "404" then .modelMissing
  else if jsIncludes m "quota" || jsIncludes m "rate limit" then .quotaRateLimit
  else if jsIncludes m "invalid" || jsIncludes m "400" then .malformedRequest
  else .other

/-- Modelled from the claim's words: each category's clearer message,
every other failure re-raised unchanged. -/
def claimRethrow (modelName errMessage : String) : String :=
  match claimErrorCategory errMessage with
  | .credential => "Invalid API key. Please check your GOOGLE_API_KEY in settings."
  | .modelMissing => "Model " ++ modelName ++ " not found. Please check your model configuration."
  | .quotaRateLimit => "API quota exceeded or rate limit reached. Please try again later."
  | .malformedRequest => "Invalid request: " ++ errMessage
  | .other => errMessage

/-- C9: the `catch` block classifies every failure by message content
into exactly the four rewritten categories of the claim, in that order,
re-raising each with the clearer message, and re-raises every other
failure unchanged; checked against the claim-side classifier and at one
concrete message per category. -/
theorem generateImage_error_classification :
    (∀ modelName errMessage : String,
      generateImageRethrow modelName errMessage = claimRethrow modelName errMessage)
    ∧ (∀ modelName errMessage : String,
      claimErrorCategory errMessage = .other →
        generateImageRethrow modelName errMessage = errMessage)
    ∧ generateImageRethrow "m" "Request failed with status code 403"
        = "Invalid API key. Please check your GOOGLE_API_KEY in settings."
    ∧ generateImageRethrow "m" "models/m is NOT FOUND"
        = "Model m not found. Please check your model configuration."
    ∧ generateImageRethrow "m" "Quota exceeded for requests"
        = "API quota exceeded or rate limit reached. Please try again later."
    ∧ generateImageRethrow "m" "Invalid argument: aspectRatio"
        = "Invalid request: Invalid argument: aspectRatio"
    ∧ generateImageRethrow "m" "socket hang up" = "socket hang up" := by
  have hmain : ∀ modelName errMessage : String,
      generateImageRethrow modelName errMessage = claimRethrow modelName errMessage := by
    intro modelName errMessage
    simp only [generateImageRethrow, claimRethrow, claimErrorCategory]
    split_ifs <;> rfl
  refine ⟨hmain, ?_, by decide, by decide, by decide, by decide, by decide⟩
  intro modelName errMessage h
  rw [hmain]
  unfold claimRethrow
  rw [h]

/-- Witness for C9: an unclassified transport failure is re-raised
unchanged. -/
theorem generateImage_error_classification_witness :
    generateImageRethrow "gemini-3-pro-image-preview" "ECONNRESET" = "ECONNRESET" :=
  generateImage_error_classification.2.1 "gemini-3-pro-image-preview" "ECONNRESET" (by decide)

/-! ## Env-file value quoting (save) and unquoting (load)

The `save-config` handler (logger.ts 1317–1328) writes one
`KEY=VALUE` line per entry, double-quoting values that contain a space,
`'#'` or `'='` and backslash-escaping inner double quotes;
`loadFreshConfig` (logger.ts 1092–1102) parses each line with
`/^([^#=]+)=(.*)$/`, trims the value and strips one pair of surrounding
double or single quotes — it does *not* unescape `\"`. -/

/-- `value.replace(/"/g, '\\"')`. -/
def escapeQuotes : List Char → List Char
  | [] => []
  | c :: cs => if c = '"' then '\\' :: '"' :: escapeQuotes cs else c :: escapeQuotes cs

/-- The value formatting of `save-config` (logger.ts 1321–1323):

    const escapedValue = value.includes(' ') || value.includes('#') || value.includes('=')
      ? `"${value.replace(/"/g, '\\"')}"`
      : value;
-/
def saveFormatValue (v : List Char) : List Char :=
  if v.contains ' ' || v.contains '#' || v.contains '=' then
    '"' :: (escapeQuotes v ++ ['"'])
  else v

/-- The written line `` `${key}=${escapedValue}` ``. -/
def saveFormatLine (key v : List Char) : List Char :=
  key ++ '=' :: saveFormatValue v

/-- Split a line at its first `'='`; `none` when there is none. -/
def splitAtFirstEq : List Char → Option (List Char × List Char)
  | [] => none
  | c :: cs =>
    if c = '=' then some ([], cs)
    else (splitAtFirstEq cs).map fun p => (c :: p.1, p.2)

/-- The per-line regex `^([^#=]+)=(.*)$` of `loadFreshConfig`
(logger.ts 1093): group 1 is the non-empty run before the first `'='`,
which may not contain `'#'` (nor, by construction, `'='`); group 2 is
the rest of the line. -/
def parseEnvLine (line : List Char) : Option (List Char × List Char) :=
  match splitAtFirstEq line with
  | none => none
  | some (k, rest) => if k ≠ [] ∧ ¬ k.contains '#' then some (k, rest) else none

/-- The value post-processing of `loadFreshConfig` (logger.ts
1096–1101): `value = match[2].trim()`, then strip one pair of
surrounding double or single quotes (`value.slice(1, -1)`). -/
def loadParseValue (raw : List Char) : List Char :=
  let v := jsTrimL raw
  if (v.head? = some '"' ∧ v.getLast? = some '"') ∨
      (v.head? = some '\'' ∧ v.getLast? = some '\'') then
    (v.drop 1).dropLast
  else v

/-- The value that loading reads back from a single saved line. -/
def loadValueOfLine (line : List Char) : Option (List Char) :=
  (parseEnvLine line).map fun p => loadParseValue p.2

/-- Escaping is the identity on values without a double quote. -/
theorem escapeQuotes_eq_self (v : List Char) (h : v.contains '"' = false) :
    escapeQuotes v = v := by
  induction v with
  | nil => rfl
  | cons c cs ih =>
    rw [List.contains_cons, Bool.or_eq_false_iff] at h
    unfold escapeQuotes
    rw [if_neg (fun hc => by rw [hc] at h; exact absurd h.1 (by decide)), ih h.2]

/-- `dropWhile` is the identity when the head fails the predicate. -/
theorem dropWhile_eq_self_of_head (p : Char → Bool) (l : List Char)
    (h : ∀ c, l.head? = some c → p c = false) : l.dropWhile p = l := by
  cases l with
  | nil => rfl
  | cons a t =>
    rw [List.dropWhile_cons, if_neg]
    rw [h a rfl]
    exact Bool.false_ne_true

/-- `trim()` is the identity when neither end is whitespace. -/
theorem jsTrimL_eq_self (l : List Char)
    (hh : ∀ c, l.head? = some c → jsIsSpace c = false)
    (hl : ∀ c, l.getLast? = some c → jsIsSpace c = false) : jsTrimL l = l := by
  unfold jsTrimL
  rw [dropWhile_eq_self_of_head _ _ hh,
    dropWhile_eq_self_of_head _ _ (fun c hc => hl c (by rwa [List.head?_reverse] at hc)),
    List.reverse_reverse]

/-- Splitting at the first `'='` of `key ++ '=' :: rest` recovers the
pair when the key contains no `'='`. -/
theorem splitAtFirstEq_append (key rest : List Char) (hk : key.contains '=' = false) :
    splitAtFirstEq (key ++ '=' :: rest) = some (key, rest) := by
  induction key with
  | nil =>
    rw [List.nil_append]
    simp only [splitAtFirstEq]
    rw [if_pos trivial]
  | cons c cs ih =>
    rw [List.contains_cons, Bool.or_eq_false_iff] at hk
    rw [List.cons_append]
    simp only [splitAtFirstEq]
    rw [if_neg (fun hc => by rw [hc] at hk; exact absurd hk.1 (by decide)), ih hk.2]
    rfl

/-- Counterexample to C7 as stated: a value containing double quotes
does not survive the round trip — `save-config` writes
`KEY="a \"b\""`, and the load path strips the outer quotes but never
unescapes `\"`, returning `a \"b\"` (with literal backslashes) instead
of `a "b"`. -/
theorem saveLoad_quote_counterexample :
    loadValueOfLine (saveFormatLine "KEY".toList "a \"b\"".toList)
      = some "a \\\"b\\\"".toList
    ∧ loadValueOfLine (saveFormatLine "KEY".toList "a \"b\"".toList)
      ≠ some "a \"b\"".toList := by
  refine ⟨by decide, ?_⟩
  intro h
  have h1 : loadValueOfLine (saveFormatLine "KEY".toList "a \"b\"".toList)
      = some "a \\\"b\\\"".toList := by decide
  rw [h1] at h
  exact absurd h (by decide)

/-- C7 (amended): for keys that are non-empty and free of `'#'` and
`'='`, a save followed by a load returns the value unchanged for every
value that contains no double quote and no newline, does not begin or
end with whitespace, and is not wrapped in single quotes; such a value
is quoted on write exactly when it contains a space, `'#'` or `'='`,
and unquoted on read.  (Values containing a double quote are escaped on
write but never unescaped on read and therefore do not round-trip; a
value with a newline breaks the line format itself.) -/
theorem saveLoad_roundTrip (key v : List Char)
    (hk1 : key ≠ [])
    (hk2 : key.contains '#' = false)
    (hk3 : key.contains '=' = false)
    (hq : v.contains '"' = false)
    (hn : v.contains '\n' = false)
    (hh : ∀ c, v.head? = some c → jsIsSpace c = false)
    (hl : ∀ c, v.getLast? = some c → jsIsSpace c = false)
    (hsq : ¬ (v.head? = some '\'' ∧ v.getLast? = some '\'')) :
    loadValueOfLine (saveFormatLine key v) = some v := by
  unfold loadValueOfLine saveFormatLine parseEnvLine
  rw [splitAtFirstEq_append key _ hk3]
  show Option.map (fun p => loadParseValue p.2)
      (if key ≠ [] ∧ ¬ key.contains '#' then some (key, saveFormatValue v) else none)
    = some v
  rw [if_pos ⟨hk1, fun hc => by rw [hk2] at hc; exact absurd hc (by decide)⟩]
  show some (loadParseValue (saveFormatValue v)) = some v
  congr 1
  unfold saveFormatValue
  by_cases hneed : (v.contains ' ' || v.contains '#' || v.contains '=') = true
  · rw [if_pos hneed]
    unfold loadParseValue
    have hcons : ('"' :: (escapeQuotes v ++ ['"']))
        = ('"' :: escapeQuotes v) ++ ['"'] := by
      rw [List.cons_append]
    have hlast : ('"' :: (escapeQuotes v ++ ['"'])).getLast? = some '"' := by
      rw [hcons, List.getLast?_concat]
    have htrim : jsTrimL ('"' :: (escapeQuotes v ++ ['"']))
        = '"' :: (escapeQuotes v ++ ['"']) := by
      refine jsTrimL_eq_self _ (fun c hc => ?_) (fun c hc => ?_)
      · rw [List.head?_cons] at hc
        rw [← Option.some.inj hc]
        rfl
      · rw [hlast] at hc
        rw [← Option.some.inj hc]
        rfl
    rw [htrim, if_pos (Or.inl ⟨rfl, hlast⟩)]
    rw [List.drop_one, List.tail_cons, List.dropLast_concat]
    exact escapeQuotes_eq_self v hq
  · rw [if_neg hneed]
    unfold loadParseValue
    rw [jsTrimL_eq_self v hh hl, if_neg]
    rintro (⟨hhd, -⟩ | hsq')
    · cases v with
      | nil => exact absurd hhd (by decide)
      | cons a t =>
        rw [List.head?_cons] at hhd
        rw [List.contains_cons, Option.some.inj hhd] at hq
        simp at hq
    · exact hsq hsq'

/-- Witness for C7's amended theorem: the value `hello world#1=2`
(spaces, `'#'` and `'='`) is quoted on write and read back unchanged. -/
theorem saveLoad_roundTrip_witness :
    loadValueOfLine (saveFormatLine "IMAGE_PROMPT".toList "hello world#1=2".toList)
      = some "hello world#1=2".toList :=
  saveLoad_roundTrip "IMAGE_PROMPT".toList "hello world#1=2".toList
    (by decide) (by decide) (by decide) (by decide) (by decide)
    (fun c hc => by rw [← Option.some.inj hc]; rfl)
    (fun c hc => by
      have : ("hello world#1=2".toList).getLast? = some '2' := by decide
      rw [this] at hc
      rw [← Option.some.inj hc]
      rfl)
    (fun hpair => by
      have : ("hello world#1=2".toList).head? = some 'h' := by decide
      rw [this] at hpair
      exact absurd (Option.some.inj hpair.1) (by decide))

end WallpaperScheduler
